import Mathlib

/-!
Verification development for the Barren Engine reliable-messaging core.

Each C++ routine under scrutiny is embedded as an executable Lean
definition over `Nat` bytes (machine arithmetic is modelled with explicit
`% 256` where the source truncates to `uint8_t`, and `Nat` subtraction
where the source subtracts monotone-clock instants).  Fallible or
potentially undefined operations (exceptions, out-of-bounds vector
accesses, unbounded recursion) are modelled with `Option`; values the
C++ leaves indeterminate (default-initialised scalars, the 4 bytes of a
16-byte CBC state filled from a 12-byte IV, the GCM tag array) are taken
as explicit parameters so every theorem quantifies over their possible
resolutions.
-/

namespace BarrenEngine

namespace Crypto

def SBOX : List Nat := [
  99, 124, 119, 123, 242, 107, 111, 197, 48, 1, 103, 43, 254, 215, 171, 118,
  202, 130, 201, 125, 250, 89, 71, 240, 173, 212, 162, 175, 156, 164, 114, 192,
  183, 253, 147, 38, 54, 63, 247, 204, 52, 165, 229, 241, 113, 216, 49, 21,
  4, 199, 35, 195, 24, 150, 5, 154, 7, 18, 128, 226, 235, 39, 178, 117,
  9, 131, 44, 26, 27, 110, 90, 160, 82, 59, 214, 179, 41, 227, 47, 132,
  83, 209, 0, 237, 32, 252, 177, 91, 106, 203, 190, 57, 74, 76, 88, 207,
  208, 239, 170, 251, 67, 77, 51, 133, 69, 249, 2, 127, 80, 60, 159, 168,
  81, 163, 64, 143, 146, 157, 56, 245, 188, 182, 218, 33, 16, 255, 243, 210,
  205, 12, 19, 236, 95, 151, 68, 23, 196, 167, 126, 61, 100, 93, 25, 115,
  96, 129, 79, 220, 34, 42, 144, 136, 70, 238, 184, 20, 222, 94, 11, 219,
  224, 50, 58, 10, 73, 6, 36, 92, 194, 211, 172, 98, 145, 149, 228, 121,
  231, 200, 55, 109, 141, 213, 78, 169, 108, 86, 244, 234, 101, 122, 174, 8,
  186, 120, 37, 46, 28, 166, 180, 198, 232, 221, 116, 31, 75, 189, 139, 138,
  112, 62, 181, 102, 72, 3, 246, 14, 97, 53, 87, 185, 134, 193, 29, 158,
  225, 248, 152, 17, 105, 217, 142, 148, 155, 30, 135, 233, 206, 85, 40, 223,
  140, 161, 137, 13, 191, 230, 66, 104, 65, 153, 45, 15, 176, 84, 187, 22]

def INV_SBOX : List Nat := [
  82, 9, 106, 213, 48, 54, 165, 56, 191, 64, 163, 158, 129, 243, 215, 251,
  124, 227, 57, 130, 155, 47, 255, 135, 52, 142, 67, 68, 196, 222, 233, 203,
  84, 123, 148, 50, 166, 194, 35, 61, 238, 76, 149, 11, 66, 250, 195, 78,
  8, 46, 161, 102, 40, 217, 36, 178, 118, 91, 162, 73, 109, 139, 209, 37,
  114, 248, 246, 100, 134, 104, 152, 22, 212, 164, 92, 204, 93, 101, 182, 146,
  108, 112, 72, 80, 253, 237, 185, 218, 94, 21, 70, 87, 167, 141, 157, 132,
  144, 216, 171, 0, 140, 188, 211, 10, 247, 228, 88, 5, 184, 179, 69, 6,
  208, 44, 30, 143, 202, 63, 15, 2, 193, 175, 189, 3, 1, 19, 138, 107,
  58, 145, 17, 65, 79, 103, 220, 234, 151, 242, 207, 206, 240, 180, 230, 115,
  150, 172, 116, 34, 231, 173, 53, 133, 226, 249, 55, 232, 28, 117, 223, 110,
  71, 241, 26, 113, 29, 41, 197, 137, 111, 183, 98, 14, 170, 24, 190, 27,
  252, 86, 62, 75, 198, 210, 121, 32, 154, 219, 192, 254, 120, 205, 90, 244,
  31, 221, 168, 51, 136, 7, 199, 49, 177, 18, 16, 89, 39, 128, 236, 95,
  96, 81, 127, 169, 25, 181, 74, 13, 45, 229, 122, 159, 147, 201, 156, 239,
  160, 224, 59, 77, 174, 42, 245, 176, 200, 235, 187, 60, 131, 83, 153, 97,
  23, 43, 4, 126, 186, 119, 214, 38, 225, 105, 20, 99, 85, 33, 12, 125]

def RCON : List Nat := [
  1, 2, 4, 8, 16, 32, 64, 128, 27, 54]

/-- Table lookup `SBOX[b]` (all stored bytes are below 256, so `getD` never
falls back for in-range indices). -/
def sbox (b : Nat) : Nat := SBOX.getD b 0

/-- Table lookup `INV_SBOX[b]`. -/
def invSbox (b : Nat) : Nat := INV_SBOX.getD b 0

/-- Table lookup `RCON[r]`. -/
def rcon (r : Nat) : Nat := RCON.getD r 0

/-- Crypto::xorBlocks: byte-wise XOR of two 16-byte blocks. -/
def xorBlocks (dest src : List Nat) : List Nat := List.zipWith Nat.xor dest src

/-- Left rotation of a list by k positions. -/
def rotL (l : List Nat) (k : Nat) : List Nat := l.drop k ++ l.take k

/-- std::rotate(begin+a, begin+m, begin+e) on a byte vector: the subrange
[a,e) is rotated left by m-a positions; here k = m-a. -/
def subRot (l : List Nat) (a e k : Nat) : List Nat :=
  l.take a ++ rotL ((l.drop a).take (e - a)) k ++ l.drop e

/-- Crypto::generateRoundKey: rotate the last word, S-box it, XOR the round
constant into byte 0, then the sequential loop
roundKey[i+4] = roundKey[i] ^ roundKey[i+4] for i = 0..11. -/
def generateRoundKey (key : List Nat) (round : Nat) : List Nat :=
  let rk0 := subRot key 12 16 1
  let rk1 := rk0.take 12 ++ (rk0.drop 12).map sbox
  let rk2 := rk1.set 0 ((rk1.getD 0 0) ^^^ rcon round)
  (List.range 12).foldl (fun rk i => rk.set (i + 4) ((rk.getD i 0) ^^^ (rk.getD (i + 4) 0))) rk2

/-- MixColumns transform of one 4-byte column, exactly as written in the
source (the int-level shifts and XORs are truncated to uint8_t at the
final cast, modelled by the trailing % 256). -/
def mixChunk (c : List Nat) : List Nat :=
  match c with
  | [s0, s1, s2, s3] =>
      [((s0 <<< 1) ^^^ (s1 <<< 1) ^^^ s1 ^^^ s2 ^^^ s3) % 256,
       (s0 ^^^ (s1 <<< 1) ^^^ (s2 <<< 1) ^^^ s2 ^^^ s3) % 256,
       (s0 ^^^ s1 ^^^ (s2 <<< 1) ^^^ (s3 <<< 1) ^^^ s3) % 256,
       ((s0 <<< 1) ^^^ s0 ^^^ s1 ^^^ s2 ^^^ (s3 <<< 1)) % 256]
  | _ => c

/-- The MixColumns loop over the four consecutive 4-byte columns. -/
def mixColumns (b : List Nat) : List Nat :=
  mixChunk (b.take 4) ++ mixChunk ((b.drop 4).take 4) ++
  mixChunk ((b.drop 8).take 4) ++ mixChunk (b.drop 12)

/-- Crypto::encryptBlock: initial AddRoundKey, then 10 rounds of SubBytes,
ShiftRows, MixColumns (rounds 0..8 only) and AddRoundKey with
generateRoundKey key round. -/
def encryptBlock (block key : List Nat) : List Nat :=
  (List.range 10).foldl
    (fun b round =>
      let b1 := subRot (subRot (subRot (b.map sbox) 4 8 1) 8 12 2) 12 16 3
      let b2 := if round < 9 then mixColumns b1 else b1
      xorBlocks b2 (generateRoundKey key round))
    (xorBlocks block key)

/-- Crypto::decryptBlock: initial AddRoundKey, then 10 rounds of the
source order: the three rotates, inverse SubBytes, AddRoundKey, and
(rounds 0..8) the transformation labelled inverse MixColumns, whose body
is identical to the forward MixColumns. -/
def decryptBlock (block key : List Nat) : List Nat :=
  (List.range 10).foldl
    (fun b round =>
      let b1 := (subRot (subRot (subRot b 12 16 3) 8 12 2) 4 8 1).map invSbox
      let b2 := xorBlocks b1 (generateRoundKey key round)
      if round < 9 then mixColumns b2 else b2)
    (xorBlocks block key)

/-- Crypto::padBlock: append paddingSize copies of paddingSize, where
paddingSize = 16 - len % 16 (in 1..16). -/
def padBlock (d : List Nat) : List Nat :=
  d ++ List.replicate (16 - d.length % 16) (16 - d.length % 16)

/-- Crypto::unpadBlock: no-op on empty input; throws (None) when the last
byte is 0 or above 16, else drops that many bytes. -/
def unpadBlock (d : List Nat) : Option (List Nat) :=
  if d.isEmpty then some d
  else
    let p := d.getLastD 0
    if 16 < p ∨ p = 0 then none else some (d.take (d.length - p))

/-- Split a byte vector into consecutive 16-byte blocks, as the mode loops
do with i += BLOCK_SIZE. -/
def chunk16 : List Nat → List (List Nat)
  | [] => []
  | a :: as => ((a :: as).take 16) :: chunk16 ((a :: as).drop 16)
termination_by l => l.length
decreasing_by simp [List.length_drop]; omega

/-- CBC encryption chain over the block list: each plaintext block is
XORed with the previous ciphertext block (initially the IV state) and
encrypted. -/
def cbcEncChunks (k : List Nat) (prev : List Nat) : List (List Nat) → List (List Nat)
  | [] => []
  | c :: cs =>
      let e := encryptBlock (xorBlocks c prev) k
      e :: cbcEncChunks k e cs

/-- CBC decryption chain over the block list. -/
def cbcDecChunks (k : List Nat) (prev : List Nat) : List (List Nat) → List (List Nat)
  | [] => []
  | c :: cs => xorBlocks (decryptBlock c k) prev :: cbcDecChunks k c cs

/-- Crypto::encryptCBC.  The C++ copies the 12-byte IV into an
uninitialised 16-byte previousBlock, leaving bytes 12..15 indeterminate;
prev is that full 16-byte initial state (iv ++ 4 junk bytes). -/
def encryptCBC (d k prev : List Nat) : List Nat :=
  (cbcEncChunks (k.take 16) prev (chunk16 (padBlock d))).flatten

/-- Crypto::decryptCBC, with the same indeterminate-tail convention for
prev.  Throws (None) if the input size is not a multiple of 16, and
propagates unpadBlock failure. -/
def decryptCBC (d k prev : List Nat) : Option (List Nat) :=
  if d.length % 16 = 0 then
    unpadBlock (cbcDecChunks (k.take 16) prev (chunk16 d)).flatten
  else none

/-- Crypto::encryptGCM: the authentication tag array is never written
(only declared), so its 16 bytes are indeterminate, modelled by the
junkTag parameter; the data is encrypted with encryptCBC and the tag is
appended. -/
def encryptGCM (d k iv junkPrev junkTag : List Nat) : List Nat :=
  encryptCBC d k (iv ++ junkPrev) ++ junkTag

/-- Crypto::decryptGCM: rejects inputs shorter than the 16-byte tag,
strips the trailing 16 bytes, and decrypts the rest with decryptCBC.
The computed tag is never produced and the received tag is never
compared against anything. -/
def decryptGCM (d k iv junkPrev : List Nat) : Option (List Nat) :=
  if d.length < 16 then none
  else decryptCBC (d.take (d.length - 16)) k (iv ++ junkPrev)

end Crypto

namespace Compression

mutual

/-- Compression::compress, with stack depth made explicit as fuel (each
nested call consumes one unit; `none` models a call that has not returned
within the given depth).  The LZ4/ZSTD library calls are outside the
repository and are abstracted by the `lib` parameter; they are only
reached if `shouldCompressFuel` returns `true`.  An empty input or a
`false` beneficial-compression answer returns the data unchanged. -/
def compressFuel (lib : List Nat → List Nat) : Nat → List Nat → Option (List Nat)
  | 0, _ => none
  | fuel + 1, d =>
    if d.isEmpty then some d
    else
      match shouldCompressFuel lib fuel d with
      | none => none
      | some true => some (lib d)
      | some false => some d

/-- Compression::shouldCompress: inputs below MIN_COMPRESSION_SIZE = 64
bytes are rejected immediately; otherwise the data is compressed via
`compressFuel` on the same input and the size ratio is compared against
COMPRESSION_RATIO_THRESHOLD = 0.8. -/
def shouldCompressFuel (lib : List Nat → List Nat) : Nat → List Nat → Option Bool
  | 0, _ => none
  | fuel + 1, d =>
    if d.length < 64 then some false
    else
      match compressFuel lib fuel d with
      | none => none
      | some c => some (decide ((c.length : ℚ) / (d.length : ℚ) < 4 / 5))

end

end Compression

namespace Connection

/-- Connection.hpp Packet, with millisecond instants for the two clocks. -/
structure Packet where
  sequenceNumber : Nat
  timestamp : Nat
  reliability : Nat
  data : List Nat
  isAcknowledged : Bool
  lastResendTime : Nat
deriving DecidableEq

/-- Connection::RESEND_TIMEOUT = 0.1f.  The source compares it against a
whole number of elapsed seconds, so any threshold in (0, 1] yields the
same predicate; 1/10 stands in for the float literal. -/
def RESEND_TIMEOUT : ℚ := 1 / 10

/-- Connection::shouldResendPacket: false for acknowledged packets, else
the elapsed time is truncated to whole seconds
(duration_cast to seconds of now - lastResendTime) and compared with
RESEND_TIMEOUT. -/
def shouldResendPacket (now : Nat) (p : Packet) : Bool :=
  if p.isAcknowledged then false
  else decide (RESEND_TIMEOUT ≤ (((now - p.lastResendTime) / 1000 : Nat) : ℚ))

/-- Connection::handleAcknowledgment: the entry for the acked sequence is
marked acknowledged and erased; on a table with unique keys the net
effect is removal of that key. -/
def handleAcknowledgment (seq : Nat) (tbl : List (Nat × Packet)) : List (Nat × Packet) :=
  tbl.filter (fun sp => !(sp.1 == seq))

/-- Connection::resendUnacknowledgedPackets: the iterator loop keeps (and
stamps with now) every entry for which shouldResendPacket is true, and
erases every other entry. -/
def resendUnacknowledgedPackets (now : Nat) (tbl : List (Nat × Packet)) : List (Nat × Packet) :=
  tbl.filterMap (fun sp =>
    if shouldResendPacket now sp.2 then some (sp.1, { sp.2 with lastResendTime := now })
    else none)

/-- Connection::updateStatistics: when packetsSent_ > 0 the loss estimate
becomes packetsLost_ / packetsSent_, otherwise it is left unchanged. -/
def updateStatistics (packetsSent packetsLost : Nat) (packetLoss : ℚ) : ℚ :=
  if 0 < packetsSent then (packetsLost : ℚ) / (packetsSent : ℚ) else packetLoss

end Connection

namespace PacketScheduler

/-- PacketMetadata from PacketPriority.hpp (priority as its enum value,
the deadline as a millisecond instant; the float bandwidth limit and the
QoS tag play no role in the scheduler paths modelled here). -/
structure PacketMetadata where
  priority : Nat
  deadline : Nat
  size : Nat
  sequenceNumber : Nat
  requiresAck : Bool
deriving DecidableEq

/-- PrioritizedPacket: payload plus metadata. -/
structure PrioritizedPacket where
  data : List Nat
  metadata : PacketMetadata
deriving DecidableEq

/-- PrioritizedPacket::operator<: compare priority enum values first
(a numerically larger value is less), then, within a class, a later
deadline is less. -/
def ltPP (a b : PrioritizedPacket) : Bool :=
  if a.metadata.priority ≠ b.metadata.priority then
    decide (b.metadata.priority < a.metadata.priority)
  else decide (b.metadata.deadline < a.metadata.deadline)

/-- PacketScheduler::enqueuePacket: refuse when the queue is at
maxQueueSize_, else add the packet.  The list keeps enqueue order; the
heap structure of std::priority_queue is represented by reading the
maximum through pqTop. -/
def enqueuePacket (maxQueueSize : Nat) (q : List PrioritizedPacket) (p : PrioritizedPacket) :
    List PrioritizedPacket × Bool :=
  if maxQueueSize ≤ q.length then (q, false) else (q ++ [p], true)

/-- std::priority_queue::top(): a greatest element with respect to
operator<.  For the inputs analysed here the maximum is unique, so the
fold tie-breaking never matters. -/
def pqTop : List PrioritizedPacket → Option PrioritizedPacket
  | [] => none
  | p :: ps => some (ps.foldl (fun a b => if ltPP a b then b else a) p)

/-- PacketScheduler::dequeuePacket recursion: pop and skip the top while
its deadline has passed (deadline < now), else hand it out.  One unit of
fuel per pop bounds the recursion by the queue length. -/
def dequeueAux (now : Nat) : Nat → List PrioritizedPacket → Option (PrioritizedPacket × List PrioritizedPacket)
  | 0, _ => none
  | fuel + 1, q =>
    match pqTop q with
    | none => none
    | some t =>
        if t.metadata.deadline < now then dequeueAux now fuel (q.erase t)
        else some (t, q.erase t)

/-- PacketScheduler::dequeuePacket. -/
def dequeuePacket (now : Nat) (q : List PrioritizedPacket) :
    Option (PrioritizedPacket × List PrioritizedPacket) :=
  dequeueAux now q.length q

end PacketScheduler

namespace NetworkManager

/-- NetworkMessage from NetworkManager.hpp (reliability as its enum
value). -/
structure NetworkMessage where
  data : List Nat
  timestamp : Nat
  reliability : Nat
  messageId : Nat
  fragmentIndex : Nat
  totalFragments : Nat
  isFragment : Bool
deriving DecidableEq

/-- NetworkManager::FragmentInfo: the fragment buffer is a
std::vector<NetworkMessage>, which default-constructs empty and is never
resized anywhere in the source. -/
structure FragmentInfo where
  fragments : List NetworkMessage
  timestamp : Nat
  totalFragments : Nat
  receivedFragments : Nat
deriving DecidableEq

/-- Bounds-checked vector write fragments[i] = m: the C++ operator[] has
undefined behaviour out of bounds, modelled as None. -/
def listSet? (l : List NetworkMessage) (i : Nat) (m : NetworkMessage) : Option (List NetworkMessage) :=
  if i < l.length then some (l.set i m) else none

/-- fragmentMap_.erase(messageId). -/
def eraseGroup (map : List (Nat × FragmentInfo)) (mid : Nat) : List (Nat × FragmentInfo) :=
  map.filter (fun kv => !(kv.1 == mid))

/-- Write-back of the mutated FragmentInfo reference obtained from
fragmentMap_[messageId]: replace the entry if present, else insert it. -/
def insertGroup (map : List (Nat × FragmentInfo)) (mid : Nat) (fi : FragmentInfo) :
    List (Nat × FragmentInfo) :=
  if (map.lookup mid).isSome then map.map (fun kv => if kv.1 == mid then (mid, fi) else kv)
  else map ++ [(mid, fi)]

/-- NetworkManager::reassembleFragments: reads fragments[0] for the
header fields (None when the buffer is empty, an out-of-bounds read in
the C++) and concatenates the buffered fragment payloads in buffer
order.  The reassembled message is default-constructed, so its fragment
index and total are the 0 of an untouched model value. -/
def reassembleFragments (fi : FragmentInfo) : Option NetworkMessage :=
  match fi.fragments.head? with
  | none => none
  | some f0 =>
      some { messageId := f0.messageId, reliability := f0.reliability,
             timestamp := f0.timestamp, isFragment := false,
             fragmentIndex := 0, totalFragments := 0,
             data := (fi.fragments.map (fun f => f.data)).flatten }

/-- The fragment branch of NetworkManager::processIncomingData: look up
or default-construct the group; when its buffer is empty, stamp it with
now and the total carried by the message; write the fragment at
fragmentIndex (undefined behaviour, None, when out of bounds);
count it; on receivedFragments = totalFragments reassemble and erase the
group, else store the updated group. -/
def storeFragment (map : List (Nat × FragmentInfo)) (m : NetworkMessage) (now : Nat) :
    Option (List (Nat × FragmentInfo) × Option NetworkMessage) :=
  let fi0 := (map.lookup m.messageId).getD ⟨[], 0, 0, 0⟩
  let fi1 := if fi0.fragments.isEmpty then
    { fi0 with timestamp := now, totalFragments := m.totalFragments, receivedFragments := 0 }
    else fi0
  match listSet? fi1.fragments m.fragmentIndex m with
  | none => none
  | some fs =>
      let fi2 : FragmentInfo := { fi1 with fragments := fs, receivedFragments := fi1.receivedFragments + 1 }
      if fi2.receivedFragments = fi2.totalFragments then
        match reassembleFragments fi2 with
        | none => none
        | some re => some (eraseGroup map m.messageId, some re)
      else some (insertGroup map m.messageId fi2, none)

/-- NetworkManager::processIncomingData for a configuration with
encryption and compression disabled, acting on the message queue and the
fragment map.  The received NetworkMessage is default-constructed and
only its data and timestamp are assigned, so messageId, fragmentIndex,
totalFragments and isFragment are indeterminate reads, passed in as the
j-parameters.  A completed or non-fragment message is handed to the
callback and pushed on the queue (one delivery); an incomplete fragment
just updates the map. -/
def processIncomingData (queue : List NetworkMessage) (fragMap : List (Nat × FragmentInfo))
    (d : List Nat) (now ts jMid jFidx jFtot : Nat) (jIsFrag : Bool) :
    Option (List NetworkMessage × List (Nat × FragmentInfo)) :=
  if d.isEmpty then some (queue, fragMap)
  else
    let msg : NetworkMessage :=
      { data := d, timestamp := ts, reliability := 0, messageId := jMid,
        fragmentIndex := jFidx, totalFragments := jFtot, isFragment := jIsFrag }
    if msg.isFragment then
      match storeFragment fragMap msg now with
      | none => none
      | some (map2, none) => some (queue, map2)
      | some (map2, some re) => some (queue ++ [re], map2)
    else some (queue ++ [msg], fragMap)

/-- NetworkManager::fragmentMessage: totalFragments = ceil(size /
fragmentSize); fragment i carries the parent id, index i, the total,
isFragment = true, the parent reliability and timestamp, and the byte
range [i * fragmentSize, min((i+1) * fragmentSize, size)). -/
def fragmentMessage (fragmentSize : Nat) (m : NetworkMessage) : List NetworkMessage :=
  let totalFragments := (m.data.length + fragmentSize - 1) / fragmentSize
  (List.range totalFragments).map (fun i =>
    { messageId := m.messageId, fragmentIndex := i, totalFragments := totalFragments,
      isFragment := true, reliability := m.reliability, timestamp := m.timestamp,
      data := (m.data.drop (i * fragmentSize)).take fragmentSize })

end NetworkManager


end BarrenEngine

namespace BarrenEngine

/-- Resend eligibility as the specification words it: a packet is
eligible when now - last_send_instant ≥ max(100 ms, 2·RTT).  Stated from
the spec, for comparison with Connection.shouldResendPacket. -/
def specEligibleForResend (elapsedMs rttMs : Nat) : Bool :=
  decide (max 100 (2 * rttMs) ≤ elapsedMs)

/-- A reliable packet 100 ms after its only send, not yet acknowledged. -/
def packetC2 : Connection.Packet :=
  { sequenceNumber := 0, timestamp := 0, reliability := 2, data := [1, 2, 3],
    isAcknowledged := false, lastResendTime := 1000 }

/-- A reliable packet 150 ms after its only send, not yet acknowledged. -/
def packetC6 : Connection.Packet :=
  { sequenceNumber := 7, timestamp := 0, reliability := 2, data := [4, 5, 6],
    isAcknowledged := false, lastResendTime := 1000 }

/-- Two packets of the same priority class (MEDIUM = 2): enqueued first
with the later deadline 10. -/
def packetC7a : PacketScheduler.PrioritizedPacket :=
  { data := [1], metadata := { priority := 2, deadline := 10, size := 1, sequenceNumber := 0, requiresAck := true } }

/-- Enqueued second, same class, earlier deadline 5. -/
def packetC7b : PacketScheduler.PrioritizedPacket :=
  { data := [2], metadata := { priority := 2, deadline := 5, size := 1, sequenceNumber := 1, requiresAck := true } }

/-- The five wire bytes processed twice in the duplication scenario. -/
def wireBytesC4 : List Nat := [1, 2, 3, 4, 5]

/-- Parent message for the fragmentation witness: three bytes split at
fragment size two. -/
def msgC5 : NetworkManager.NetworkMessage :=
  { data := [9, 8, 7], timestamp := 5, reliability := 2, messageId := 42,
    fragmentIndex := 0, totalFragments := 0, isFragment := false }

end BarrenEngine

open BarrenEngine

section Helpers

/-- A rational at least 1/10 that is the cast of a natural number is at
least 1; used to relate the float threshold comparison with the
whole-second truncation. -/
theorem ratTenth_le_natCast (s : Nat) : (1 / 10 : ℚ) ≤ (s : ℚ) ↔ 1 ≤ s := by
  constructor
  · intro h
    rcases Nat.eq_zero_or_pos s with rfl | hp
    · norm_num at h
    · exact hp
  · intro h
    have h1 : (1 : ℚ) ≤ (s : ℚ) := by exact_mod_cast h
    linarith

/-- Simultaneous divergence of the compress / shouldCompress pair on
inputs of at least MIN_COMPRESSION_SIZE bytes: no amount of fuel lets
either call return. -/
theorem compress_and_shouldCompress_diverge (lib : List Nat → List Nat) :
    ∀ fuel (d : List Nat), 64 ≤ d.length →
      Compression.compressFuel lib fuel d = none ∧
      Compression.shouldCompressFuel lib fuel d = none := by
  intro fuel
  induction fuel with
  | zero => intro d _; exact ⟨rfl, rfl⟩
  | succ n ih =>
    intro d hd
    have hne : d.isEmpty = false := by
      cases d with
      | nil => simp at hd
      | cons a as => rfl
    constructor
    · simp [Compression.compressFuel, hne, (ih d hd).2]
    · simp [Compression.shouldCompressFuel, (ih d hd).1, Nat.not_lt.mpr hd]

/-- Arithmetic of the fragment count: for a non-empty payload, the
ceiling division peels off exactly one fragment. -/
theorem ceil_div_succ (L fs : Nat) (hfs : 0 < fs) (hL : 1 ≤ L) :
    (L + fs - 1) / fs = ((L - fs) + fs - 1) / fs + 1 := by
  rcases le_or_lt L fs with hc | hc
  · have h1 : L - fs = 0 := by omega
    have h2 : L + fs - 1 = (L - 1) + fs := by omega
    rw [h1, h2, Nat.add_div_right _ hfs, Nat.div_eq_of_lt (by omega),
      Nat.zero_add, Nat.div_eq_of_lt (by omega)]
  · have h2 : L + fs - 1 = (L - 1) + fs := by omega
    have h3 : (L - fs) + fs - 1 = L - 1 := by omega
    rw [h2, Nat.add_div_right _ hfs, h3]

/-- Concatenating the ceil(len / fs) consecutive fs-sized slices of a
list reproduces the list. -/
theorem flatten_range_chunks (fs : Nat) (hfs : 0 < fs) :
    ∀ n (d : List Nat), d.length ≤ n →
      ((List.range ((d.length + fs - 1) / fs)).map
        (fun i => (d.drop (i * fs)).take fs)).flatten = d := by
  intro n
  induction n with
  | zero =>
    intro d hd
    have hnil : d = [] := List.eq_nil_of_length_eq_zero (Nat.le_zero.mp hd)
    subst hnil
    simp [Nat.div_eq_of_lt (show fs - 1 < fs by omega)]
  | succ n ih =>
    intro d hd
    cases hD : d with
    | nil => simp [Nat.div_eq_of_lt (show fs - 1 < fs by omega)]
    | cons a as =>
      subst hD
      have hL : 1 ≤ (a :: as).length := by simp
      rw [ceil_div_succ _ fs hfs hL, List.range_succ_eq_map]
      simp only [List.map_cons, List.map_map, List.flatten_cons, Nat.zero_mul, List.drop_zero]
      have hfun : ((fun i => (((a :: as).drop (i * fs)).take fs)) ∘ Nat.succ)
          = fun i => ((((a :: as).drop fs).drop (i * fs)).take fs) := by
        funext i
        simp only [Function.comp_apply, List.drop_drop]
        congr 2
        rw [Nat.succ_mul, Nat.add_comm, Nat.mul_comm]
      have hlen : ((a :: as).drop fs).length = (a :: as).length - fs := by
        simp [List.length_drop]
      rw [hfun, ← hlen, ih ((a :: as).drop fs) ?_]
      · exact List.take_append_drop fs (a :: as)
      · simp only [List.length_drop, List.length_cons]
        simp only [List.length_cons] at hd
        omega

end Helpers

set_option maxRecDepth 1000000 in
/-- C1: the inbound unseal is not an inverse of the outbound seal.  The
claim open(seal(p)) = p requires decryptBlock to invert encryptBlock
(every encrypted QoS path funnels through them: GCM delegates to CBC,
which chains encryptBlock / decryptBlock); on the all-zero block and
all-zero key the decryption of the encryption differs from the original
block, so the pipeline cannot reproduce the payload. -/
theorem decryptBlock_not_inverse_of_encryptBlock :
    Crypto.decryptBlock (Crypto.encryptBlock (List.replicate 16 0) (List.replicate 16 0))
      (List.replicate 16 0) ≠ List.replicate 16 0 := by decide

/-- C2: the periodic resend pass does remove entries from the Unacked
Table without an ack and without retry exhaustion.  packetC2 is pending
(unacknowledged, 100 ms old, so not yet due for resend: the truncated
elapsed seconds are 0) and the pass erases its entry, with no loss
counter and no DeliveryFailed event anywhere in the routine. -/
theorem resendPass_erases_pending_entry :
    packetC2.isAcknowledged = false ∧
    Connection.shouldResendPacket 1100 packetC2 = false ∧
    Connection.resendUnacknowledgedPackets 1100 [(0, packetC2)] = [] := by
  refine ⟨rfl, ?_, ?_⟩ <;>
    norm_num [Connection.resendUnacknowledgedPackets, Connection.shouldResendPacket,
      Connection.RESEND_TIMEOUT, packetC2]

/-- C3: authenticated decryption never checks the tag: the result of
decryptGCM is unchanged under arbitrary replacement of the trailing
16-byte tag, so a non-verifying tag can never produce an AuthFailure,
and whenever the genuine input decrypts to a plaintext the tampered one
returns the same plaintext. -/
theorem decryptGCM_ignores_tag (k iv junkPrev body t1 t2 : List Nat)
    (h1 : t1.length = 16) (h2 : t2.length = 16) :
    Crypto.decryptGCM (body ++ t1) k iv junkPrev =
      Crypto.decryptGCM (body ++ t2) k iv junkPrev := by
  unfold Crypto.decryptGCM
  rw [List.length_append, h1, List.length_append, h2]
  rw [if_neg (by omega), if_neg (by omega)]
  norm_num

/-- witness for C3 at concrete inputs. -/
theorem decryptGCM_ignores_tag_witness :
    Crypto.decryptGCM (List.replicate 16 5 ++ List.replicate 16 0) (List.replicate 16 0)
        (List.replicate 12 0) (List.replicate 4 0) =
      Crypto.decryptGCM (List.replicate 16 5 ++ List.replicate 16 1) (List.replicate 16 0)
        (List.replicate 12 0) (List.replicate 4 0) :=
  decryptGCM_ignores_tag (List.replicate 16 0) (List.replicate 12 0) (List.replicate 4 0)
    (List.replicate 16 5) (List.replicate 16 0) (List.replicate 16 1) (by simp) (by simp)

/-- C4: the receive path performs no duplicate detection: processing the
same wire bytes twice (non-fragment path, compression and encryption
off) enqueues two application deliveries of the same payload, whatever
values the indeterminate header fields of the default-constructed
message take on each run. -/
theorem duplicate_packet_delivered_twice
    (now1 ts1 jm1 jf1 jt1 now2 ts2 jm2 jf2 jt2 : Nat) :
    (NetworkManager.processIncomingData [] [] wireBytesC4 now1 ts1 jm1 jf1 jt1 false).bind
      (fun st => NetworkManager.processIncomingData st.1 st.2 wireBytesC4 now2 ts2 jm2 jf2 jt2 false) =
    some ([{ data := wireBytesC4, timestamp := ts1, reliability := 0, messageId := jm1,
             fragmentIndex := jf1, totalFragments := jt1, isFragment := false },
           { data := wireBytesC4, timestamp := ts2, reliability := 0, messageId := jm2,
             fragmentIndex := jf2, totalFragments := jt2, isFragment := false }], []) := by
  simp [NetworkManager.processIncomingData, wireBytesC4]

/-- C5: fragmentMessage of a payload larger than the fragment size
produces exactly ceil(size / fragmentSize) fragments, all bearing the
parent message id, is_fragment = true and the common total; the
fragment indices are exactly 0..N-1 in order, and the concatenation of
the fragment payloads is the original payload. -/
theorem fragmentMessage_partition (fs : Nat) (m : NetworkManager.NetworkMessage)
    (h0 : 0 < fs) (h1 : fs < m.data.length) :
    (NetworkManager.fragmentMessage fs m).length = (m.data.length + fs - 1) / fs ∧
    (∀ f ∈ NetworkManager.fragmentMessage fs m,
        f.messageId = m.messageId ∧ f.isFragment = true ∧
        f.totalFragments = (m.data.length + fs - 1) / fs) ∧
    (NetworkManager.fragmentMessage fs m).map (fun f => f.fragmentIndex) =
      List.range ((m.data.length + fs - 1) / fs) ∧
    ((NetworkManager.fragmentMessage fs m).map (fun f => f.data)).flatten = m.data := by
  refine ⟨by simp [NetworkManager.fragmentMessage], ?_, ?_, ?_⟩
  · intro f hf
    simp only [NetworkManager.fragmentMessage, List.mem_map, List.mem_range] at hf
    obtain ⟨i, _, rfl⟩ := hf
    exact ⟨rfl, rfl, rfl⟩
  · simp [NetworkManager.fragmentMessage, List.map_map, Function.comp_def]
  · simp only [NetworkManager.fragmentMessage, List.map_map]
    exact flatten_range_chunks fs h0 m.data.length m.data le_rfl

/-- witness for C5: fragment size 2 on the three-byte payload of msgC5
satisfies the hypotheses and reassembles byte-for-byte. -/
theorem fragmentMessage_partition_witness :
    0 < 2 ∧ 2 < msgC5.data.length ∧
    ((NetworkManager.fragmentMessage 2 msgC5).map (fun f => f.data)).flatten = msgC5.data :=
  ⟨by decide, by decide, (fragmentMessage_partition 2 msgC5 (by decide) (by decide)).2.2.2⟩

/-- C6 counterexample: a packet unacked for 150 ms with RTT 40 ms is
eligible according to the claim (150 ≥ max(100, 2·40)) but
shouldResendPacket says no: the elapsed duration is truncated to whole
seconds before the comparison, so nothing under one second is ever
eligible. -/
theorem resend_eligibility_differs_from_claim :
    specEligibleForResend 150 40 = true ∧
    1150 - packetC6.lastResendTime = 150 ∧
    packetC6.isAcknowledged = false ∧
    Connection.shouldResendPacket 1150 packetC6 = false := by
  refine ⟨by decide, by decide, rfl, ?_⟩
  norm_num [Connection.shouldResendPacket, Connection.RESEND_TIMEOUT, packetC6]

/-- C6 as amended: an unacked packet is eligible for resend exactly when
a full second has elapsed since last_send_instant (the 100 ms constant
is compared against a seconds-truncated duration and RTT plays no
role); resending refreshes last_send_instant, and no retry counter
exists. -/
theorem shouldResendPacket_iff (now : Nat) (p : Connection.Packet) :
    Connection.shouldResendPacket now p = true ↔
      p.isAcknowledged = false ∧ 1000 ≤ now - p.lastResendTime := by
  cases hA : p.isAcknowledged with
  | true => simp [Connection.shouldResendPacket, hA]
  | false =>
    simp only [Connection.shouldResendPacket, hA, Bool.false_eq_true, if_false,
      decide_eq_true_eq, true_and]
    rw [Connection.RESEND_TIMEOUT, ratTenth_le_natCast]
    rw [Nat.le_div_iff_mul_le (by norm_num), one_mul]

/-- C7 counterexample: packetC7a is enqueued before packetC7b in the
same priority class, yet dequeuePacket hands out packetC7b first
because its deadline is earlier: deadlines do reorder within a class,
so release is not FIFO. -/
theorem same_class_fifo_violated :
    (PacketScheduler.enqueuePacket 1000
        (PacketScheduler.enqueuePacket 1000 [] packetC7a).1 packetC7b).1 =
      [packetC7a, packetC7b] ∧
    PacketScheduler.dequeuePacket 0 [packetC7a, packetC7b] =
      some (packetC7b, [packetC7a]) ∧
    packetC7b ≠ packetC7a := by decide

/-- C7 as amended: within one priority class the scheduler is
earliest-deadline-first: of two same-class packets with different
deadlines, the one with the earlier (not yet passed) deadline is
dequeued first, regardless of enqueue order. -/
theorem same_class_earliest_deadline_first (d1 d2 : List Nat)
    (m1 m2 : PacketScheduler.PacketMetadata) (now : Nat)
    (hpr : m1.priority = m2.priority) (hdl : m2.deadline < m1.deadline)
    (hnow : now ≤ m2.deadline) :
    PacketScheduler.dequeuePacket now [⟨d1, m1⟩, ⟨d2, m2⟩] =
      some (⟨d2, m2⟩, [⟨d1, m1⟩]) := by
  have hne : ((⟨d1, m1⟩ : PacketScheduler.PrioritizedPacket) == ⟨d2, m2⟩) = false := by
    rw [beq_eq_false_iff_ne]
    intro h
    have hm : m1 = m2 := congrArg PacketScheduler.PrioritizedPacket.metadata h
    rw [hm] at hdl
    omega
  have htop : PacketScheduler.ltPP ⟨d1, m1⟩ ⟨d2, m2⟩ = true := by
    simp [PacketScheduler.ltPP, hpr, hdl]
  simp [PacketScheduler.dequeuePacket, PacketScheduler.dequeueAux, PacketScheduler.pqTop,
    htop, Nat.not_lt.mpr hnow, List.erase_cons, hne]

/-- witness for C7 at concrete inputs: class 1, deadlines 20 then 7,
clock at 3. -/
theorem same_class_earliest_deadline_first_witness :
    PacketScheduler.dequeuePacket 3
        [⟨[9], ⟨1, 20, 1, 0, true⟩⟩, ⟨[8], ⟨1, 7, 1, 1, true⟩⟩] =
      some (⟨[8], ⟨1, 7, 1, 1, true⟩⟩, [⟨[9], ⟨1, 20, 1, 0, true⟩⟩]) :=
  same_class_earliest_deadline_first [9] [8] ⟨1, 20, 1, 0, true⟩ ⟨1, 7, 1, 1, true⟩ 3
    rfl (by decide) (by decide)

/-- C8 counterexample: with 1 packet sent and 1 lost the update sets the
loss estimate to 1, whereas the claim lost / (sent + lost) gives 1/2. -/
theorem loss_ratio_counterexample :
    Connection.updateStatistics 1 1 0 = 1 ∧
    (1 : ℚ) / ((1 : ℚ) + 1) = 1 / 2 ∧
    Connection.updateStatistics 1 1 0 ≠ 1 / 2 := by
  norm_num [Connection.updateStatistics]

/-- C8 as amended: whenever at least one packet has been sent, the
statistics update sets the loss estimate to lost / sent (the loss count
does not enter the denominator); with no sent packets the estimate is
left unchanged. -/
theorem updateStatistics_loss_eq_lost_div_sent (s l : Nat) (c : ℚ) (h : 0 < s) :
    Connection.updateStatistics s l c = (l : ℚ) / (s : ℚ) := by
  simp [Connection.updateStatistics, h]

/-- witness for C8: four sent, one lost gives 1/4. -/
theorem updateStatistics_loss_eq_lost_div_sent_witness :
    Connection.updateStatistics 4 1 0 = 1 / 4 := by
  rw [updateStatistics_loss_eq_lost_div_sent 4 1 0 (by norm_num)]
  norm_num

/-- C9: compress never returns on any input of MIN_COMPRESSION_SIZE = 64
bytes: whatever the library behaviour and whatever the call-depth
budget, the mutual recursion with shouldCompress consumes it all
(compress asks shouldCompress about the very same vector, which
compresses the very same vector again), so the pair is not total. -/
theorem compress_diverges_at_64_bytes (lib : List Nat → List Nat) (fuel : Nat) :
    Compression.compressFuel lib fuel (List.replicate 64 0) = none :=
  (compress_and_shouldCompress_diverge lib fuel (List.replicate 64 0) (by simp)).1

/-- C10: the first fragment of any message reaching an empty fragment
map is stored out of bounds: the group vector is default-constructed
empty and never resized, so the write fragments[fragmentIndex] has no
in-bounds position for any index and the receive path aborts into the
undefined-behaviour branch (None), whatever the indeterminate header
fields hold. -/
theorem fragment_store_out_of_bounds (q : List NetworkManager.NetworkMessage)
    (now ts jMid jFidx jFtot : Nat) :
    NetworkManager.processIncomingData q [] [1, 2, 3] now ts jMid jFidx jFtot true = none := by
  simp [NetworkManager.processIncomingData, NetworkManager.storeFragment,
    NetworkManager.listSet?]
